import Mathlib

/-!
Shallow embedding of the adaptive difficulty calibration and selection engine
(speed-credit model, weighted non-increasing PAV fit, per-level tempo
calibrator, bout-level drill scheduler).

Modelling conventions:
* Python floats are modelled as exact rationals, Python ints as integers.
* A Python operation that can raise at runtime (division by zero, KeyError on
  a dict, min over an empty list, indexing an empty list, a call with missing
  required arguments) is modelled as an Option-valued function returning none
  at exactly the raising inputs.
* A Python dict is modelled as an association list in insertion order;
  assignment overwrites an existing key in place or appends a new one.
* The random draw of random.random() is passed as an explicit argument r.
* Stable sorts (list.sort / sorted with a key) are modelled by a stable
  insertion sort on the key.
-/

set_option maxRecDepth 8000

namespace EarTrainer

/-- Hard full-credit boundary in seconds (source constant T_MIN_SEC = 1.0). -/
def T_MIN_SEC : ℚ := 1

/-- Hard zero-credit boundary in seconds (source constant T_MAX_SEC = 9.0). -/
def T_MAX_SEC : ℚ := 9

/-- Source helper clip01. -/
def clip01 (x : ℚ) : ℚ := max 0 (min 1 x)

/-- Source helper norm_tempo; with t_max = t_min the source divides by zero
(ZeroDivisionError), modelled as none. -/
def norm_tempo (t t_min t_max : ℤ) : Option ℚ :=
  if t_max = t_min then none
  else some (clip01 (((t - t_min : ℤ) : ℚ) / ((t_max - t_min : ℤ) : ℚ)))

/-- Source speed_credit_from_seconds: 1 at or below T_MIN_SEC, 0 at or above
T_MAX_SEC, linear in between. -/
def speed_credit_from_seconds (sec : ℚ) : ℚ :=
  if sec ≤ T_MIN_SEC then 1
  else if T_MAX_SEC ≤ sec then 0
  else 1 - (sec - T_MIN_SEC) / (T_MAX_SEC - T_MIN_SEC)

/-- Source seconds_from_speed_credit: clips the credit to [0,1] and maps it
back linearly onto [T_MIN_SEC, T_MAX_SEC]. -/
def seconds_from_speed_credit (credit : ℚ) : ℚ :=
  T_MIN_SEC + (1 - clip01 credit) * (T_MAX_SEC - T_MIN_SEC)

/-- Source dataclass IsoPoint. -/
structure IsoPoint where
  value : ℚ
  weight : ℚ
deriving DecidableEq, Repr

/-- Source inner function block_mean: weighted mean of a block, reported as 0
when the total weight is 0 (the source's division-by-zero guard). -/
def block_mean (b : List IsoPoint) : ℚ :=
  let w := (b.map IsoPoint.weight).sum
  if w = 0 then 0 else (b.map (fun p => p.value * p.weight)).sum / w

/-- The PAV while-loop of IsotonicNonIncreasing.fit, with an explicit fuel
that callers set to twice the initial number of blocks; the quantity
2 * blocks.length - i strictly decreases on every iteration and the loop
exits as soon as i reaches blocks.length - 1, so that fuel is never
exhausted before the loop would exit on its own (pavGo_fuel below).

Faithful detail: on a merge the source deletes the absorbed entry from
blocks but NOT from means, so subsequent comparisons at positions to the
right of a merge read stale, misaligned means. This is reproduced exactly. -/
def pavGo : ℕ → List (List IsoPoint) → List ℚ → ℕ → List (List IsoPoint) × List ℚ
  | 0, blocks, means, _ => (blocks, means)
  | fuel + 1, blocks, means, i =>
    if i < blocks.length - 1 then
      if means.getD i 0 < means.getD (i + 1) 0 then
        let merged := blocks.getD i [] ++ blocks.getD (i + 1) []
        pavGo fuel ((blocks.set i merged).eraseIdx (i + 1))
          (means.set i (block_mean merged)) (if 0 < i then i - 1 else i)
      else
        pavGo fuel blocks means (i + 1)
    else (blocks, means)

namespace IsotonicNonIncreasing

/-- Source IsotonicNonIncreasing.fit with explicit weights: one singleton
block per point, the PAV while-loop, then each surviving block's mean is
expanded back to one fitted value per original position. -/
def fit (values weights : List ℚ) : List ℚ :=
  let blocks := (values.zip weights).map (fun vw => [IsoPoint.mk vw.1 vw.2])
  let means := blocks.map block_mean
  let out := pavGo (2 * blocks.length) blocks means 0
  (out.1.map (fun b => List.replicate b.length (block_mean b))).flatten

/-- Source IsotonicNonIncreasing.fit with weights = None: every weight 1.0. -/
def fitDefault (values : List ℚ) : List ℚ :=
  fit values (List.replicate values.length 1)

end IsotonicNonIncreasing

/-- The weighted-least-squares cost of a candidate output g against the input
(values, weights): sum of w_i * (g_i - v_i)^2. -/
def wlsCost (values weights g : List ℚ) : ℚ :=
  (((values.zip weights).zip g).map
    (fun p => p.1.2 * (p.2 - p.1.1) * (p.2 - p.1.1))).sum

/-- The optimality property the specification asserts for the fit output (the
classical pool-adjacent-violators guarantee), stated from the spec's words:
the output is a same-length non-increasing sequence minimising the weighted
sum of squared deviations among all non-increasing sequences of that length. -/
def specPAVOptimal (values weights out : List ℚ) : Prop :=
  out.length = values.length ∧ List.Chain' (fun a b => b ≤ a) out ∧
  ∀ g, g.length = values.length → List.Chain' (fun a b => b ≤ a) g →
    wlsCost values weights out ≤ wlsCost values weights g

/-- Source dataclass BinStat. -/
structure BinStat where
  tempo_center : ℤ
  ema_sec : ℚ
  count : ℕ
deriving DecidableEq, Repr

/-- Default BinStat used as the never-reached fallback of dictionary reads
whose key is known to be present. -/
def defaultBin : BinStat := { tempo_center := 0, ema_sec := 0, count := 0 }

/-- Python dict assignment on an association list: overwrite in place if the
key is present (keeping its position), else append. -/
def dictInsert {β : Type} : List (ℤ × β) → ℤ → β → List (ℤ × β)
  | [], k, v => [(k, v)]
  | (k1, v1) :: rest, k, v =>
    if k1 = k then (k, v) :: rest else (k1, v1) :: dictInsert rest k v

/-- Python dict read: some value if present, none (KeyError) otherwise. -/
def dictGet? {β : Type} : List (ℤ × β) → ℤ → Option β
  | [], _ => none
  | (k1, v1) :: rest, k => if k1 = k then some v1 else dictGet? rest k

/-- Dict read with a default, used where the key is known to be present. -/
def dictGetD {β : Type} (l : List (ℤ × β)) (k : ℤ) (d : β) : β :=
  (dictGet? l k).getD d

/-- Python min over a list of ints: none on the empty list (ValueError). -/
def listMin? : List ℤ → Option ℤ
  | [] => none
  | x :: xs => some (xs.foldl min x)

/-- Python round on a float, which rounds half to even; operand values here
are modelled as exact rationals. -/
def pyRound (q : ℚ) : ℤ :=
  if 2 * q < 2 * (⌊q⌋ : ℚ) + 1 then ⌊q⌋
  else if 2 * (⌊q⌋ : ℚ) + 1 < 2 * q then ⌊q⌋ + 1
  else if ⌊q⌋ % 2 = 0 then ⌊q⌋ else ⌊q⌋ + 1

/-- Stable insertion of x after every element whose key is ≤ its key. -/
def insertSorted {α β : Type} [LinearOrder β] (f : α → β) : List α → α → List α
  | [], x => [x]
  | y :: ys, x => if f y ≤ f x then y :: insertSorted f ys x else x :: y :: ys

/-- Worker of the stable sort, folding elements left to right into a sorted
accumulator. -/
def sortGo {α β : Type} [LinearOrder β] (f : α → β) : List α → List α → List α
  | acc, [] => acc
  | acc, x :: xs => sortGo f (insertSorted f acc x) xs

/-- Stable sort by key, modelling Python list.sort / sorted with a key. -/
def sortByKey {α β : Type} [LinearOrder β] (f : α → β) (l : List α) : List α :=
  sortGo f [] l

/-- Source dataclass TempoCalibrator (per-difficulty-level binned model of
tempo to expected response seconds). -/
structure TempoCalibrator where
  t_min : ℤ
  t_max : ℤ
  n_bins : ℤ
  ema_lambda : ℚ
  anchor_fast_sec : ℚ
  anchor_slow_sec : ℚ
  bins : List (ℤ × BinStat)
deriving DecidableEq, Repr

/-- The bin layout of TempoCalibrator.__post_init__, without the division by
zero that n_bins = 1 triggers: evenly spaced rounded tempo centers, each bin
starting at the neutral 5.0-second prior with zero observations. -/
def mkTempoCalibratorRaw (t_min t_max n_bins : ℤ) (lam fast slow : ℚ) :
    TempoCalibrator :=
  { t_min := t_min, t_max := t_max, n_bins := n_bins, ema_lambda := lam,
    anchor_fast_sec := fast, anchor_slow_sec := slow,
    bins :=
      ((List.range n_bins.toNat).map (fun i =>
        pyRound ((t_min : ℚ) +
          ((i : ℚ) * ((t_max - t_min : ℤ) : ℚ)) / ((n_bins - 1 : ℤ) : ℚ)))).foldl
        (fun d t => dictInsert d t { tempo_center := t, ema_sec := 5, count := 0 })
        [] }

/-- TempoCalibrator construction: with n_bins = 1 the edge computation in
__post_init__ divides by n_bins - 1 = 0 and raises, hence none; any other bin
count (including zero and negative, which leave bins empty) constructs. -/
def mkTempoCalibrator (t_min t_max n_bins : ℤ) (lam fast slow : ℚ) :
    Option TempoCalibrator :=
  if n_bins = 1 then none else some (mkTempoCalibratorRaw t_min t_max n_bins lam fast slow)

/-- Source TempoCalibrator.nearest_center: the first key of minimal absolute
distance to tempo in dict iteration order; none when bins is empty (Python
min raises ValueError). -/
def nearest_center (cal : TempoCalibrator) (tempo : ℤ) : Option ℤ :=
  match cal.bins.map Prod.fst with
  | [] => none
  | k :: ks =>
    some (ks.foldl (fun best c => if |c - tempo| < |best - tempo| then c else best) k)

/-- Source TempoCalibrator.update: EMA update and count increment on the
nearest bin. -/
def calibratorUpdate (cal : TempoCalibrator) (tempo : ℤ) (observed_sec : ℚ) :
    Option TempoCalibrator :=
  match nearest_center cal tempo with
  | none => none
  | some c =>
    match dictGet? cal.bins c with
    | none => none
    | some b =>
      some { cal with
        bins := dictInsert cal.bins c
          { tempo_center := b.tempo_center,
            ema_sec := (1 - cal.ema_lambda) * b.ema_sec + cal.ema_lambda * observed_sec,
            count := b.count + 1 } }

/-- Source TempoCalibrator.smoothed_curve: values and weights in ascending
center order, boundary anchors pinned onto the first and last entry with
weight at least 50, then the weighted fit; none when bins is empty (the
source would index values[0] of an empty list). -/
def smoothed_curve (cal : TempoCalibrator) : Option (List (ℤ × ℚ)) :=
  let centers := sortByKey (fun c : ℤ => c) (cal.bins.map Prod.fst)
  match centers with
  | [] => none
  | _ :: _ =>
    let values0 := centers.map (fun c => (dictGetD cal.bins c defaultBin).ema_sec)
    let weights0 := centers.map
      (fun c => ((max 1 (dictGetD cal.bins c defaultBin).count : ℕ) : ℚ))
    let values1 := values0.set 0 (min (values0.getD 0 0) cal.anchor_fast_sec)
    let weights1 := weights0.set 0 (max (weights0.getD 0 0) 50)
    let values2 := values1.set (values1.length - 1)
      (max (values1.getD (values1.length - 1) 0) cal.anchor_slow_sec)
    let weights2 := weights1.set (weights1.length - 1)
      (max (weights1.getD (weights1.length - 1) 0) 50)
    some (centers.zip (IsotonicNonIncreasing.fit values2 weights2))

/-- The clamp-or-interpolate logic of TempoCalibrator.predict_seconds over an
already computed curve: clamp at either end, otherwise linear interpolation
between the first bracketing pair of centers, with the source's final
fallthrough to the last fitted value. -/
def interpScan : List (ℤ × ℚ) → ℤ → Option ℚ
  | (c0, s0) :: (c1, s1) :: rest, tempo =>
    if c0 ≤ tempo ∧ tempo ≤ c1 then
      some ((1 - ((tempo - c0 : ℤ) : ℚ) / ((c1 - c0 : ℤ) : ℚ)) * s0 +
        (((tempo - c0 : ℤ) : ℚ) / ((c1 - c0 : ℤ) : ℚ)) * s1)
    else interpScan ((c1, s1) :: rest) tempo
  | _, _ => none

/-- Evaluation of predict_seconds on a computed smoothed curve. -/
def predictFromCurve (curve : List (ℤ × ℚ)) (tempo : ℤ) : ℚ :=
  let centers := curve.map Prod.fst
  let secs := curve.map Prod.snd
  if tempo ≤ centers.getD 0 0 then secs.getD 0 0
  else if centers.getD (centers.length - 1) 0 ≤ tempo then
    secs.getD (secs.length - 1) 0
  else (interpScan curve tempo).getD (secs.getD (secs.length - 1) 0)

/-- Source TempoCalibrator.predict_seconds: recomputes the smoothed curve on
every call, then clamps or interpolates; none when bins is empty. -/
def predict_seconds (cal : TempoCalibrator) (tempo : ℤ) : Option ℚ :=
  (smoothed_curve cal).map (fun curve => predictFromCurve curve tempo)

/-- Source dataclass DrillCandidate. -/
structure DrillCandidate where
  N : ℤ
  tempo : ℤ
  pred_sec : ℚ
  Fe : ℚ
  diff : ℚ
deriving DecidableEq, Repr

/-- Placeholder candidate for list reads at indices that are always in
bounds. -/
def defaultCand : DrillCandidate :=
  { N := 0, tempo := 0, pred_sec := 0, Fe := 0, diff := 0 }

/-- Source dataclass BoutStats. -/
structure BoutStats where
  n_items : ℕ
  sum_score : ℚ
deriving DecidableEq, Repr

/-- Source class DrillHub: the bout-level adaptive scheduler state. -/
structure DrillHub where
  F : ℚ
  p_star : ℚ
  wN : ℚ
  t_min : ℤ
  t_max : ℤ
  N_max : ℤ
  N_set : List ℤ
  active_tempos : List ℤ
  calibrators : List (ℤ × TempoCalibrator)
  last_candidate : Option DrillCandidate
  bout : BoutStats
  max_bpm_step : ℤ
  allow_N_step : ℤ
  last_N : Option ℤ
  last_tempo : Option ℤ
deriving DecidableEq, Repr

/-- Integers 1, 2, ..., n (Python range(1, n + 1)); empty when n < 1. -/
def intRange1 (n : ℤ) : List ℤ :=
  (List.range n.toNat).map (fun i => (i : ℤ) + 1)

/-- Option-valued map over a list, none as soon as one element maps to
none. -/
def optionMapList {α β : Type} (f : α → Option β) : List α → Option (List β)
  | [] => some []
  | a :: l => do
    let b ← f a
    let bs ← optionMapList f l
    some (b :: bs)

/-- Source DrillHub.__init__: stores the configuration (a falsy tempos or
N_set argument, None or the empty list, selects the hard-coded default) and
builds one 10-bin TempoCalibrator per difficulty level 1..N_max; hysteresis
steps are hard-coded to max_bpm_step = 8 and allow_N_step = 1. No
configuration validation is performed. -/
def mkDrillHub (F p_star wN : ℚ) (tempos N_set : Option (List ℤ))
    (t_min t_max N_max : ℤ) : Option DrillHub :=
  match optionMapList
    (fun N => (mkTempoCalibrator t_min t_max 10 (1 / 10) (4 / 5) (19 / 2)).map
      (fun cal => (N, cal)))
    (intRange1 N_max) with
  | none => none
  | some pairs =>
    some
    { F := F, p_star := p_star, wN := wN, t_min := t_min, t_max := t_max,
      N_max := N_max,
      N_set := match N_set with
        | none => [1, 2, 3, 4]
        | some [] => [1, 2, 3, 4]
        | some l => l,
      active_tempos := match tempos with
        | none => [72, 84, 96]
        | some [] => [72, 84, 96]
        | some l => l,
      calibrators := pairs, last_candidate := none,
      bout := { n_items := 0, sum_score := 0 },
      max_bpm_step := 8, allow_N_step := 1, last_N := none, last_tempo := none }

/-- Source DrillHub._q_difficulty: blend of normalised N and normalised
tempo, clipped to [0,1]; none when norm_tempo divides by zero. -/
def qDifficulty (hub : DrillHub) (N tempo : ℤ) : Option ℚ :=
  let n : ℚ :=
    if 1 < hub.N_max then ((N - 1 : ℤ) : ℚ) / ((hub.N_max - 1 : ℤ) : ℚ) else 0
  match norm_tempo tempo hub.t_min hub.t_max with
  | none => none
  | some t => some (clip01 (hub.wN * n + (1 - hub.wN) * t))

/-- Source DrillHub._expected_fitness: predicted seconds via the level's
calibrator, converted to speed credit and blended with structural
difficulty, clipped to [0,1]; returns the pair (Fe, q). -/
def expectedFitness (hub : DrillHub) (N tempo : ℤ) : Option (ℚ × ℚ) :=
  match dictGet? hub.calibrators N with
  | none => none
  | some cal =>
    match predict_seconds cal tempo with
    | none => none
    | some pred =>
      match qDifficulty hub N tempo with
      | none => none
      | some q =>
        some (max 0 (min 1 (hub.p_star *
          (hub.wN * q + (1 - hub.wN) * speed_credit_from_seconds pred))), q)

/-- Source DrillHub._tempos_with_rate_limits: the full active set before any
candidate was offered, otherwise the active tempos within max_bpm_step of the
last offered tempo (or the last tempo itself), falling back to just the last
tempo when the filter empties the set. -/
def temposWithRateLimits (hub : DrillHub) : List ℤ :=
  match hub.last_tempo with
  | none => hub.active_tempos
  | some lt =>
    if (hub.active_tempos.filter
        (fun t => decide (|t - lt| ≤ hub.max_bpm_step ∨ t = lt))).isEmpty
    then [lt]
    else hub.active_tempos.filter
      (fun t => decide (|t - lt| ≤ hub.max_bpm_step ∨ t = lt))

/-- The inner tempo loop of DrillHub._make_menu for one difficulty level:
predict, discard predictions outside [T_MIN_SEC, T_MAX_SEC], otherwise attach
expected fitness and structural difficulty. -/
def menuRowAux (hub : DrillHub) (N : ℤ) : List ℤ → Option (List DrillCandidate)
  | [] => some []
  | t :: ts =>
    match dictGet? hub.calibrators N with
    | none => none
    | some cal =>
      match predict_seconds cal t with
      | none => none
      | some pred =>
        match menuRowAux hub N ts with
        | none => none
        | some rest =>
          if pred < T_MIN_SEC ∨ T_MAX_SEC < pred then some rest
          else
            match expectedFitness hub N t with
            | none => none
            | some feq =>
              some ({ N := N, tempo := t, pred_sec := pred, Fe := feq.1, diff := feq.2 } :: rest)

/-- The outer difficulty loop of DrillHub._make_menu. -/
def makeMenuAux (hub : DrillHub) : List ℤ → Option (List DrillCandidate)
  | [] => some []
  | N :: Ns =>
    match menuRowAux hub N (temposWithRateLimits hub) with
    | none => none
    | some row =>
      match makeMenuAux hub Ns with
      | none => none
      | some rest => some (row ++ rest)

/-- Source DrillHub._make_menu: all surviving candidates sorted by distance
of expected fitness to the target, truncated to the six closest. -/
def makeMenu (hub : DrillHub) : Option (List DrillCandidate) :=
  (makeMenuAux hub hub.N_set).map
    (fun menu => (sortByKey (fun c => |c.Fe - hub.F|) menu).take 6)

/-- Source DrillHub._sample_from_menu with the uniform draw r passed
explicitly. Empty menu: the conservative fallback candidate from the last
offered pair or the configured minima, never filtered. Otherwise the menu is
sorted by expected fitness, the center is the first index at or above the
target fitness (clamped to the last index), and r selects
center/easier/harder with the 70/20/10 split. If the N step limiter then
fires, the source constructs the replacement DrillCandidate with only four
positional arguments (its Fe parameter receives the (Fe, q) pair and its
required diff argument is missing), which raises TypeError: modelled as
none. -/
def fallbackN (hub : DrillHub) : Option ℤ :=
  match hub.last_N with
  | some n => some n
  | none => listMin? hub.N_set

def fallbackTempo (hub : DrillHub) : Option ℤ :=
  match hub.last_tempo with
  | some t => some t
  | none => listMin? hub.active_tempos

/-- The three-way 70/20/10 pick around the center index in the fitness-sorted
menu ms. -/
def pickFromSorted (ms : List DrillCandidate) (F r : ℚ) : DrillCandidate :=
  let idx := (ms.takeWhile (fun c => decide (c.Fe < F))).length
  let center := min idx (ms.length - 1)
  if r < 7 / 10 then ms.getD center defaultCand
  else if r < 9 / 10 then ms.getD (center - 1) defaultCand
  else ms.getD (min (ms.length - 1) (center + 1)) defaultCand

def sampleFromMenu (hub : DrillHub) (menu : List DrillCandidate) (r : ℚ) :
    Option DrillCandidate :=
  match menu with
  | [] =>
    match fallbackN hub with
    | none => none
    | some N =>
      match fallbackTempo hub with
      | none => none
      | some tempo =>
        match dictGet? hub.calibrators N with
        | none => none
        | some cal =>
          match predict_seconds cal tempo with
          | none => none
          | some pred =>
            match expectedFitness hub N tempo with
            | none => none
            | some feq =>
              some { N := N, tempo := tempo, pred_sec := pred, Fe := feq.1, diff := feq.2 }
  | _ :: _ =>
    match hub.last_N with
    | some lastN =>
      if hub.allow_N_step <
          |(pickFromSorted (sortByKey (fun c : DrillCandidate => c.Fe) menu)
              hub.F r).N - lastN|
      then none
      else some (pickFromSorted (sortByKey (fun c : DrillCandidate => c.Fe) menu)
        hub.F r)
    | none =>
      some (pickFromSorted (sortByKey (fun c : DrillCandidate => c.Fe) menu)
        hub.F r)

/-- Source DrillHub.next: build the menu, sample from it, record the result
as last offered for hysteresis, return it. -/
def nextHub (hub : DrillHub) (r : ℚ) : Option (DrillCandidate × DrillHub) :=
  match makeMenu hub with
  | none => none
  | some menu =>
    match sampleFromMenu hub menu r with
    | none => none
    | some cand =>
      some (cand,
        { hub with
            last_candidate := some cand
            last_N := some cand.N
            last_tempo := some cand.tempo })

/-- Source DrillHub.feedback: a no-op when no candidate has been offered yet
(last_candidate is None); otherwise updates the last-offered level's
calibrator with the observed seconds and accumulates the per-item score
(speed credit when correct, zero otherwise) into the bout statistics. The
last-offered candidate is NOT cleared. -/
def feedbackHub (hub : DrillHub) (correct : Bool) (observed_sec : ℚ) :
    Option DrillHub :=
  match hub.last_candidate with
  | none => some hub
  | some cand =>
    match dictGet? hub.calibrators cand.N with
    | none => none
    | some cal =>
      match calibratorUpdate cal cand.tempo observed_sec with
      | none => none
      | some cal2 =>
        some { hub with
          calibrators := dictInsert hub.calibrators cand.N cal2,
          bout :=
            { n_items := hub.bout.n_items + 1,
              sum_score := hub.bout.sum_score +
                (if correct then 1 else 0) *
                  speed_credit_from_seconds observed_sec } }

/-- The bin table of a cold 10-bin calibrator over tempo range [60, 200]:
rounded evenly spaced centers, each at the neutral 5.0-second prior with zero
observations (checked against the constructor in mk_coldCalibrator). -/
def coldBins : List (ℤ × BinStat) :=
  [(60, { tempo_center := 60, ema_sec := 5, count := 0 }),
   (76, { tempo_center := 76, ema_sec := 5, count := 0 }),
   (91, { tempo_center := 91, ema_sec := 5, count := 0 }),
   (107, { tempo_center := 107, ema_sec := 5, count := 0 }),
   (122, { tempo_center := 122, ema_sec := 5, count := 0 }),
   (138, { tempo_center := 138, ema_sec := 5, count := 0 }),
   (153, { tempo_center := 153, ema_sec := 5, count := 0 }),
   (169, { tempo_center := 169, ema_sec := 5, count := 0 }),
   (184, { tempo_center := 184, ema_sec := 5, count := 0 }),
   (200, { tempo_center := 200, ema_sec := 5, count := 0 })]

/-- A cold 10-bin calibrator exactly as DrillHub.__init__ builds one with the
default tempo range: t_min = 60, t_max = 200, ema_lambda = 0.1, anchors 0.8
and 9.5 seconds (the identification with the constructor output is proved in
mk_coldCalibrator). -/
def coldCalibrator : TempoCalibrator :=
  { t_min := 60, t_max := 200, n_bins := 10, ema_lambda := 1 / 10,
    anchor_fast_sec := 4 / 5, anchor_slow_sec := 19 / 2, bins := coldBins }

/-- The smoothed curve of the cold default calibrator: every fitted value is
the single pooled weighted mean 555/108 = 185/36. -/
def coldCurve : List (ℤ × ℚ) :=
  [(60, 185 / 36), (76, 185 / 36), (91, 185 / 36), (107, 185 / 36),
   (122, 185 / 36), (138, 185 / 36), (153, 185 / 36), (169, 185 / 36),
   (184, 185 / 36), (200, 185 / 36)]

/-- A concrete scheduler state used as witness input: one difficulty level
with a cold calibrator, a candidate already offered at tempo 80 and level 1,
the constructor's hysteresis steps. -/
def hubW8 : DrillHub :=
  { F := 0, p_star := 1, wN := 0, t_min := 60, t_max := 200, N_max := 1,
    N_set := [1], active_tempos := [72, 84, 96],
    calibrators := [(1, coldCalibrator)], last_candidate := none,
    bout := { n_items := 0, sum_score := 0 },
    max_bpm_step := 8, allow_N_step := 1, last_N := some 1, last_tempo := some 80 }

/-- The candidate nextHub returns on hubW8 with draw 1/2: level 1 at tempo 72
(within 8 bpm of the last offered tempo 80), predicted 185/36 seconds. -/
def cW8 : DrillCandidate :=
  { N := 1, tempo := 72, pred_sec := 185 / 36, Fe := 139 / 288, diff := 3 / 35 }

/-- The successor state nextHub produces from hubW8 with draw 1/2. -/
def hubW8next : DrillHub :=
  { hubW8 with last_candidate := some cW8, last_N := some 1, last_tempo := some 72 }

/-- A concrete scheduler state with a last-offered candidate, used as witness
input for the feedback claims. -/
def hubW7 : DrillHub :=
  { hubW8 with last_candidate := some cW8 }

/-- The cold calibrator after one observation of 2 seconds attributed to
tempo 72 (nearest bin center 76): EMA 0.9 * 5 + 0.1 * 2 = 4.7. -/
def coldUpd1 : TempoCalibrator :=
  { coldCalibrator with
      bins := dictInsert coldBins 76 { tempo_center := 76, ema_sec := 47 / 10, count := 1 } }

/-- The state feedbackHub produces from hubW7 on an incorrect answer after
two seconds: the calibrator learns, the item count rises, the score does
not. -/
def hubW7after : DrillHub :=
  { hubW7 with
      calibrators := [(1, coldUpd1)]
      bout := { n_items := 1, sum_score := 0 } }

/-- The bout statistics after the first and the second of two consecutive
feedback calls (no intervening next) on a freshly constructed single-level
scheduler, DrillHub(F=0, p_star=1, wN=0, tempos=[72], N_set=[1], N_max=1),
that has offered one candidate. -/
def traceC6 : Option (BoutStats × BoutStats) :=
  (mkDrillHub 0 1 0 (some [72]) (some [1]) 60 200 1).bind
    (fun h0 => (nextHub h0 (1 / 2)).bind
      (fun p => (feedbackHub p.2 true 2).bind
        (fun h2 => (feedbackHub h2 true 2).map (fun h3 => (h2.bout, h3.bout)))))

/-- The scheduler run that reaches the N rate-limit replacement path:
DrillHub(F=0, p_star=1, wN=0, tempos=[72], N_set=[1, 4], N_max=4) offers
(N=1, tempo=72) on the first next() (draw 1/2 picks the center slot), and on
the second next() the draw 19/20 picks the harder slot (N=4, tempo=72),
whose N differs from the last offered N=1 by 3 > allow_N_step = 1. -/
def traceC1 (r1 r2 : ℚ) : Option (DrillCandidate × Option (DrillCandidate × DrillHub)) :=
  (mkDrillHub 0 1 0 (some [72]) (some [1, 4]) 60 200 4).bind
    (fun h0 => (nextHub h0 r1).map
      (fun p => (p.1, nextHub p.2 r2)))

/-- The first candidate offered in traceC1 (and in traceC6): level 1 at
tempo 72. -/
def cC1 : DrillCandidate :=
  { N := 1, tempo := 72, pred_sec := 185 / 36, Fe := 139 / 288, diff := 3 / 35 }

/-- The scheduler state traceC1 starts from, as DrillHub.__init__ builds it:
levels 1..4 with cold calibrators. -/
def hubC1 : DrillHub :=
  { F := 0, p_star := 1, wN := 0, t_min := 60, t_max := 200, N_max := 4,
    N_set := [1, 4], active_tempos := [72],
    calibrators := [(1, coldCalibrator), (2, coldCalibrator), (3, coldCalibrator),
      (4, coldCalibrator)],
    last_candidate := none, bout := { n_items := 0, sum_score := 0 },
    max_bpm_step := 8, allow_N_step := 1, last_N := none, last_tempo := none }

/-- The state of hubC1 after its first next() call offered cC1. -/
def hubC1b : DrillHub :=
  { hubC1 with last_candidate := some cC1, last_N := some 1, last_tempo := some 72 }

/-- The harder candidate in hubC1's menu: level 4 at tempo 72 (with wN = 0
its expected fitness equals the level-1 candidate's). -/
def c4C1 : DrillCandidate :=
  { N := 4, tempo := 72, pred_sec := 185 / 36, Fe := 139 / 288, diff := 3 / 35 }

/-- The second candidate in hubW8's menu: level 1 at tempo 84. -/
def c84W8 : DrillCandidate :=
  { N := 1, tempo := 84, pred_sec := 185 / 36, Fe := 139 / 288, diff := 6 / 35 }

/-- The cold calibrator after a second observation of 2 seconds at tempo 72:
EMA 0.9 * 4.7 + 0.1 * 2 = 4.43. -/
def coldUpd2 : TempoCalibrator :=
  { coldCalibrator with
      bins := dictInsert coldBins 76 { tempo_center := 76, ema_sec := 443 / 100, count := 2 } }

/-- The freshly constructed single-level scheduler of traceC6, as
DrillHub(F=0, p_star=1, wN=0, tempos=[72], N_set=[1], N_max=1) builds it. -/
def hubC6 : DrillHub :=
  { F := 0, p_star := 1, wN := 0, t_min := 60, t_max := 200, N_max := 1,
    N_set := [1], active_tempos := [72], calibrators := [(1, coldCalibrator)],
    last_candidate := none, bout := { n_items := 0, sum_score := 0 },
    max_bpm_step := 8, allow_N_step := 1, last_N := none, last_tempo := none }

/-- hubC6 after its first next() call offered cC1. -/
def hubC6b : DrillHub :=
  { hubC6 with last_candidate := some cC1, last_N := some 1, last_tempo := some 72 }

/-- hubC6b after one feedback(correct=True, observed_sec=2): the calibrator
learned and the bout scored credit(2) = 7/8. -/
def hubC6c : DrillHub :=
  { hubC6b with
      calibrators := [(1, coldUpd1)]
      bout := { n_items := 1, sum_score := 7 / 8 } }

/-- hubC6c after a second consecutive feedback(correct=True,
observed_sec=2): the calibrator and the bout statistics moved again. -/
def hubC6d : DrillHub :=
  { hubC6c with
      calibrators := [(1, coldUpd2)]
      bout := { n_items := 2, sum_score := 7 / 4 } }

/-! Helper lemmas. -/

theorem getD_mem {α : Type} :
    ∀ (l : List α) (i : ℕ) (d : α), i < l.length → l.getD i d ∈ l
  | [], _, _, h => absurd h (by simp)
  | x :: xs, 0, d, _ => List.mem_cons_self x xs
  | x :: xs, i + 1, d, h =>
    List.mem_cons_of_mem x (getD_mem xs i d (by simpa using h))

theorem mem_insertSorted {α β : Type} [LinearOrder β] (f : α → β) (a x : α)
    (l : List α) : a ∈ insertSorted f l x ↔ a ∈ l ∨ a = x := by
  induction l with
  | nil => simp [insertSorted]
  | cons y ys ih =>
    simp only [insertSorted]
    split
    · simp only [List.mem_cons, ih]
      tauto
    · simp only [List.mem_cons]
      tauto

theorem mem_sortGo {α β : Type} [LinearOrder β] (f : α → β) (a : α) :
    ∀ (l acc : List α), a ∈ sortGo f acc l ↔ a ∈ acc ∨ a ∈ l
  | [], acc => by simp [sortGo]
  | x :: xs, acc => by
    rw [sortGo, mem_sortGo f a xs (insertSorted f acc x), mem_insertSorted]
    simp only [List.mem_cons]
    tauto

theorem mem_sortByKey {α β : Type} [LinearOrder β] (f : α → β) (a : α)
    (l : List α) : a ∈ sortByKey f l ↔ a ∈ l := by
  simp [sortByKey, mem_sortGo]

theorem length_insertSorted {α β : Type} [LinearOrder β] (f : α → β) (x : α) :
    ∀ l : List α, (insertSorted f l x).length = l.length + 1
  | [] => rfl
  | y :: ys => by
    simp only [insertSorted]
    split
    · simp [length_insertSorted f x ys]
    · simp

theorem length_sortGo {α β : Type} [LinearOrder β] (f : α → β) :
    ∀ (l acc : List α), (sortGo f acc l).length = acc.length + l.length
  | [], acc => by simp [sortGo]
  | x :: xs, acc => by
    rw [sortGo, length_sortGo f xs (insertSorted f acc x), length_insertSorted]
    simp only [List.length_cons]
    omega

theorem length_sortByKey {α β : Type} [LinearOrder β] (f : α → β) (l : List α) :
    (sortByKey f l).length = l.length := by
  simp [sortByKey, length_sortGo]

/-- When the loop guard fails the PAV loop returns its state unchanged,
whatever fuel remains. -/
theorem pavGo_stop {fuel : ℕ} {blocks : List (List IsoPoint)} {means : List ℚ}
    {i : ℕ} (h : ¬ i < blocks.length - 1) :
    pavGo fuel blocks means i = (blocks, means) := by
  cases fuel with
  | zero => rfl
  | succ g => simp [pavGo, h]

/-- Fuel adequacy: any two fuels at least 2 * blocks.length - i give the same
result, so the fuel 2 * blocks.length used by fit behaves as the unbounded
while-loop of the source. -/
theorem pavGo_fuel :
    ∀ (f1 f2 : ℕ) (blocks : List (List IsoPoint)) (means : List ℚ) (i : ℕ),
      2 * blocks.length - i ≤ f1 → 2 * blocks.length - i ≤ f2 →
      pavGo f1 blocks means i = pavGo f2 blocks means i := by
  intro f1
  induction f1 with
  | zero =>
    intro f2 b m i h1 h2
    rw [pavGo_stop (by omega), pavGo_stop (by omega)]
  | succ g ih =>
    intro f2 b m i h1 h2
    cases f2 with
    | zero => rw [pavGo_stop (by omega), pavGo_stop (by omega)]
    | succ g2 =>
      by_cases hg : i < b.length - 1
      · have hset : (b.set i (b.getD i [] ++ b.getD (i + 1) [])).length = b.length := by
          simp
        have hlen2 :
            ((b.set i (b.getD i [] ++ b.getD (i + 1) [])).eraseIdx (i + 1)).length =
              b.length - 1 := by
          rw [List.length_eraseIdx, hset, if_pos (show i + 1 < b.length by omega)]
        by_cases hv : m.getD i 0 < m.getD (i + 1) 0
        · simp only [pavGo, if_pos hg, if_pos hv]
          apply ih
          · rw [hlen2]
            split <;> omega
          · rw [hlen2]
            split <;> omega
        · simp only [pavGo, if_pos hg, if_neg hv]
          apply ih <;> omega
      · rw [pavGo_stop hg, pavGo_stop hg]

/-- On means that are already non-increasing up to the block count, the PAV
loop never merges and returns its input unchanged. -/
theorem pavGo_of_sorted :
    ∀ (fuel : ℕ) (blocks : List (List IsoPoint)) (means : List ℚ) (i : ℕ),
      (∀ j, j + 1 < blocks.length → means.getD (j + 1) 0 ≤ means.getD j 0) →
      pavGo fuel blocks means i = (blocks, means) := by
  intro fuel
  induction fuel with
  | zero => intro b m i _; rfl
  | succ g ih =>
    intro b m i hs
    by_cases hg : i < b.length - 1
    · have hv : ¬ m.getD i 0 < m.getD (i + 1) 0 := not_lt.mpr (hs i (by omega))
      simp only [pavGo, if_pos hg, if_neg hv]
      exact ih b m (i + 1) hs
    · exact pavGo_stop hg

theorem chain'_ge_getD :
    ∀ (l : List ℚ), List.Chain' (fun a b => b ≤ a) l →
      ∀ j, j + 1 < l.length → l.getD (j + 1) 0 ≤ l.getD j 0
  | [], _, j, h => absurd h (by simp)
  | [a], _, j, h => absurd h (by simp)
  | a :: b :: t, h, 0, _ => (List.chain'_cons.mp h).1
  | a :: b :: t, h, j + 1, hlt =>
    chain'_ge_getD (b :: t) (List.chain'_cons.mp h).2 j (by simpa using hlt)

theorem block_mean_single (v : ℚ) : block_mean [IsoPoint.mk v 1] = v := by
  simp [block_mean]

theorem blocks_default (values : List ℚ) :
    (values.zip (List.replicate values.length (1 : ℚ))).map
      (fun vw => [IsoPoint.mk vw.1 vw.2]) =
      values.map (fun v => [IsoPoint.mk v 1]) := by
  induction values with
  | nil => rfl
  | cons v vs ih => simpa [List.replicate_succ] using ih

theorem means_default (values : List ℚ) :
    (values.map (fun v => [IsoPoint.mk v 1])).map block_mean = values := by
  induction values with
  | nil => rfl
  | cons v vs ih => simp [block_mean_single, ih]

theorem flatten_fit_default (values : List ℚ) :
    ((values.map (fun v => [IsoPoint.mk v 1])).map
      (fun b => List.replicate b.length (block_mean b))).flatten = values := by
  induction values with
  | nil => rfl
  | cons v vs ih =>
    simp only [List.map_cons, List.flatten_cons, block_mean_single, ih,
      List.length_singleton, List.replicate_one, List.singleton_append]

/-! Claim theorems for the speed-credit model and the isotonic fit. -/

/-- Evaluation of the fit on values 0, 4, 8, 100 with unit weights: after the
loop pools the first three points (mean 4), the comparison at the new
position 1 reads the stale mean 4 instead of the actual last block mean 100,
so the final violation is never repaired. -/
theorem fit_example_eval :
    IsotonicNonIncreasing.fit [0, 4, 8, 100] [1, 1, 1, 1] = [4, 4, 4, 100] := by
  with_unfolding_all decide

/-- C2 (failing evaluation): on values [0, 4, 8, 100] with the non-negative
weights [1, 1, 1, 1] the fit returns [4, 4, 4, 100], which is not
non-increasing at its last adjacent pair — the loop's stale means array (the
merged entry is deleted from blocks only) hides the final violation. -/
theorem C2_fit_output_not_nonincreasing :
    IsotonicNonIncreasing.fit [0, 4, 8, 100] [1, 1, 1, 1] = [4, 4, 4, 100] ∧
    ¬ List.Chain' (fun a b : ℚ => b ≤ a)
      (IsotonicNonIncreasing.fit [0, 4, 8, 100] [1, 1, 1, 1]) := by
  refine ⟨fit_example_eval, ?_⟩
  rw [fit_example_eval]
  norm_num [List.chain'_cons]

/-- C3 (failing evaluation): on the same input the fit output is not even a
non-increasing sequence, so it is not the weighted-least-squares-optimal
non-increasing sequence the classical PAV guarantee promises. -/
theorem C3_fit_not_wls_optimal :
    ¬ specPAVOptimal [0, 4, 8, 100] [1, 1, 1, 1]
      (IsotonicNonIncreasing.fit [0, 4, 8, 100] [1, 1, 1, 1]) := by
  intro h
  have h2 := h.2.1
  rw [fit_example_eval] at h2
  exact absurd h2 (by norm_num [List.chain'_cons])

/-- C4: fitting an already non-increasing sequence (with the default unit
weights) returns it unchanged, and the fit is therefore idempotent on such
inputs. -/
theorem C4_fit_identity_on_nonincreasing (values : List ℚ)
    (h : List.Chain' (fun a b : ℚ => b ≤ a) values) :
    IsotonicNonIncreasing.fitDefault values = values ∧
    IsotonicNonIncreasing.fitDefault (IsotonicNonIncreasing.fitDefault values) =
      IsotonicNonIncreasing.fitDefault values := by
  have h1 : IsotonicNonIncreasing.fitDefault values = values := by
    unfold IsotonicNonIncreasing.fitDefault IsotonicNonIncreasing.fit
    simp only [blocks_default, means_default]
    rw [pavGo_of_sorted]
    · exact flatten_fit_default values
    · intro j hj
      exact chain'_ge_getD values h j (by simpa using hj)
  refine ⟨h1, ?_⟩
  rw [h1]
  exact h1

/-- Witness for C4 at the concrete non-increasing input [9, 5, 5, 1]. -/
theorem C4_witness :
    List.Chain' (fun a b : ℚ => b ≤ a) [9, 5, 5, 1] ∧
    IsotonicNonIncreasing.fitDefault [9, 5, 5, 1] = [9, 5, 5, 1] :=
  ⟨by norm_num [List.chain'_cons],
    (C4_fit_identity_on_nonincreasing [9, 5, 5, 1] (by norm_num [List.chain'_cons])).1⟩

/-- C5: on the feasibility interval [T_MIN_SEC, T_MAX_SEC] the approximate
inverse is exact: seconds_from_speed_credit recovers x from its speed
credit. -/
theorem C5_seconds_credit_inverse (x : ℚ) (h1 : T_MIN_SEC ≤ x)
    (h2 : x ≤ T_MAX_SEC) :
    seconds_from_speed_credit (speed_credit_from_seconds x) = x := by
  simp only [T_MIN_SEC, T_MAX_SEC] at h1 h2
  unfold speed_credit_from_seconds seconds_from_speed_credit clip01 T_MIN_SEC T_MAX_SEC
  split_ifs with ha hb
  · have hx : x = 1 := le_antisymm ha h1
    rw [hx]
    norm_num
  · have hx : x = 9 := le_antisymm h2 hb
    rw [hx]
    norm_num
  · have hc1 : (x - 1) / (9 - 1) ≤ 1 := by
      rw [div_le_one (by norm_num)]
      linarith
    have hc0 : (0 : ℚ) ≤ (x - 1) / (9 - 1) := by
      apply div_nonneg (by linarith) (by norm_num)
    rw [min_eq_right (by linarith), max_eq_right (by linarith)]
    field_simp

/-- Witness for C5 at x = 5 (the spec's midpoint example). -/
theorem C5_witness :
    T_MIN_SEC ≤ (5 : ℚ) ∧ (5 : ℚ) ≤ T_MAX_SEC ∧
    seconds_from_speed_credit (speed_credit_from_seconds 5) = 5 :=
  ⟨by norm_num [T_MIN_SEC], by norm_num [T_MAX_SEC],
    C5_seconds_credit_inverse 5 (by norm_num [T_MIN_SEC]) (by norm_num [T_MAX_SEC])⟩

/-! Tempo calibrator lemmas. -/

/-- On a curve whose fitted values are all s, the interpolation scan returns
either nothing or s. -/
theorem interpScan_const :
    ∀ (curve : List (ℤ × ℚ)) (s : ℚ) (tempo : ℤ),
      (∀ p ∈ curve, p.2 = s) →
      interpScan curve tempo = none ∨ interpScan curve tempo = some s
  | [], _, _, _ => Or.inl rfl
  | [_], _, _, _ => Or.inl rfl
  | (c0, s0) :: (c1, s1) :: rest, s, tempo, h => by
    have h0 : s0 = s := h (c0, s0) (by simp)
    have h1 : s1 = s := h (c1, s1) (by simp)
    by_cases hc : c0 ≤ tempo ∧ tempo ≤ c1
    · right
      simp only [interpScan, if_pos hc, h0, h1, Option.some.injEq]
      push_cast
      ring
    · have hrec := interpScan_const ((c1, s1) :: rest) s tempo
        (fun p hp => h p (List.mem_cons_of_mem _ hp))
      simpa [interpScan, if_neg hc] using hrec

/-- predict_seconds on a constant curve returns that constant whatever the
tempo: both clamped ends, every interpolation, and the final fallthrough
produce s. -/
theorem predictFromCurve_const (curve : List (ℤ × ℚ)) (s : ℚ) (tempo : ℤ)
    (hne : curve ≠ []) (h : ∀ p ∈ curve, p.2 = s) :
    predictFromCurve curve tempo = s := by
  obtain ⟨p, rest, rfl⟩ : ∃ p rest, curve = p :: rest := by
    cases curve with
    | nil => exact absurd rfl hne
    | cons p rest => exact ⟨p, rest, rfl⟩
  have hhead : p.2 = s := h p (by simp)
  have hlast :
      ((p :: rest).map Prod.snd).getD (((p :: rest).map Prod.snd).length - 1) 0 = s := by
    obtain ⟨q, hq, hq2⟩ := List.mem_map.mp
      (getD_mem ((p :: rest).map Prod.snd) (((p :: rest).map Prod.snd).length - 1) 0
        (by simp))
    rw [← hq2]
    exact h q hq
  simp only [predictFromCurve]
  split_ifs with h1 h2
  · simpa using hhead
  · exact hlast
  · rcases interpScan_const (p :: rest) s tempo h with hno | hsome
    · rw [hno]
      exact hlast
    · rw [hsome]
      rfl

/-- The literal coldCalibrator is exactly what TempoCalibrator construction
produces from DrillHub's default arguments. -/
theorem mk_coldCalibrator :
    mkTempoCalibratorRaw 60 200 10 (1 / 10) (4 / 5) (19 / 2) = coldCalibrator := by
  with_unfolding_all decide

/-- The smoothed curve of the cold default calibrator: the fast anchor 0.8 at
weight 50 violates non-increasing order against every later value, so the
loop pools all ten bins into one block whose weighted mean is
(0.8 * 50 + 5 * 8 + 9.5 * 50) / 108 = 555/108 = 185/36. -/
theorem coldCurve_eval : smoothed_curve coldCalibrator = some coldCurve := by
  with_unfolding_all decide

/-- The cold default calibrator predicts the same 185/36 = 555/108 seconds at
every tempo. -/
theorem coldPredict (tempo : ℤ) :
    predict_seconds coldCalibrator tempo = some (185 / 36) := by
  have h1 : predict_seconds coldCalibrator tempo =
      some (predictFromCurve coldCurve tempo) := by
    unfold predict_seconds
    rw [coldCurve_eval]
    rfl
  rw [h1]
  refine congrArg some (predictFromCurve_const coldCurve (185 / 36) tempo
    (by simp [coldCurve]) ?_)
  intro p hp
  simp only [coldCurve, List.mem_cons, List.not_mem_nil, or_false] at hp
  rcases hp with rfl | rfl | rfl | rfl | rfl | rfl | rfl | rfl | rfl | rfl <;> rfl

/-- C10: on the freshly constructed default TempoCalibrator (the one
DrillHub.__init__ builds), predict_seconds returns the constant pooled mean
555/108 at every tempo, and that value lies strictly inside
(T_MIN_SEC, T_MAX_SEC), so the menu feasibility filter
(pred < T_MIN_SEC or pred > T_MAX_SEC) discards nothing on a cold
scheduler. -/
theorem C10_cold_predict_constant (tempo : ℤ) :
    predict_seconds (mkTempoCalibratorRaw 60 200 10 (1 / 10) (4 / 5) (19 / 2)) tempo =
      some (555 / 108) ∧
    T_MIN_SEC < 555 / 108 ∧ (555 / 108 : ℚ) < T_MAX_SEC ∧
    ¬ ((555 / 108 : ℚ) < T_MIN_SEC ∨ T_MAX_SEC < (555 / 108 : ℚ)) := by
  refine ⟨?_, by norm_num [T_MIN_SEC], by norm_num [T_MAX_SEC],
    by norm_num [T_MIN_SEC, T_MAX_SEC]⟩
  rw [mk_coldCalibrator, coldPredict]
  norm_num

/-! Constructor validation claims. -/

theorem optionMapList_isSome {α β : Type} (f : α → Option β) :
    ∀ l : List α, (∀ a ∈ l, (f a).isSome = true) →
      (optionMapList f l).isSome = true
  | [], _ => rfl
  | a :: l, h => by
    obtain ⟨b, hb⟩ := Option.isSome_iff_exists.mp (h a (by simp))
    obtain ⟨bs, hbs⟩ := Option.isSome_iff_exists.mp
      (optionMapList_isSome f l (fun x hx => h x (List.mem_cons_of_mem a hx)))
    simp [optionMapList, hb, hbs]

/-- C9 (amended): construction never validates its configuration: every
TempoCalibrator configuration except the incidental division by zero at
n_bins = 1 constructs successfully (in particular t_min ≥ t_max and
non-positive bin counts), and DrillHub construction succeeds for every
configuration whatsoever (t_min ≥ t_max, N_max < 1 included), deferring all
failures to later runtime calls. -/
theorem C9_construction_never_validates (t_min t_max n_bins : ℤ)
    (lam fast slow F p_star wN : ℚ) (tempos N_set : Option (List ℤ))
    (t_min2 t_max2 N_max2 : ℤ) (h : n_bins ≠ 1) :
    (mkTempoCalibrator t_min t_max n_bins lam fast slow).isSome = true ∧
    (mkDrillHub F p_star wN tempos N_set t_min2 t_max2 N_max2).isSome = true := by
  constructor
  · simp [mkTempoCalibrator, h]
  · have hm : (optionMapList
        (fun N => (mkTempoCalibrator t_min2 t_max2 10 (1 / 10) (4 / 5) (19 / 2)).map
          (fun cal => (N, cal)))
        (intRange1 N_max2)).isSome = true := by
      apply optionMapList_isSome
      intro a _
      simp [mkTempoCalibrator]
    obtain ⟨pairs, hp⟩ := Option.isSome_iff_exists.mp hm
    unfold mkDrillHub
    rw [hp]
    rfl

/-- C9 (counterexample to the claim as stated): a TempoCalibrator with a
non-positive bin count and inverted bounds, and a DrillHub with
t_min = 200 > t_max = 60 and N_max = 0 < 1, both construct successfully
instead of failing fast. -/
theorem C9_invalid_config_constructs :
    mkTempoCalibrator 200 60 0 (1 / 10) (4 / 5) (19 / 2) ≠ none ∧
    mkDrillHub (1 / 2) (17 / 20) (3 / 5) none none 200 60 0 ≠ none := by
  constructor
  · simp [mkTempoCalibrator]
  · simp [mkDrillHub, intRange1, optionMapList]

/-- Witness for C9 (amended) at the concrete invalid configuration. -/
theorem C9_witness :
    (mkTempoCalibrator 200 60 0 (1 / 10) (4 / 5) (19 / 2)).isSome = true ∧
    (mkDrillHub (1 / 2) (17 / 20) (3 / 5) none none 200 60 0).isSome = true :=
  C9_construction_never_validates 200 60 0 (1 / 10) (4 / 5) (19 / 2) (1 / 2)
    (17 / 20) (3 / 5) none none 200 60 0 (by decide)

/-! Scheduler lemmas: every tempo the menu machinery can return obeys the
rate limit. -/

theorem temposWithRateLimits_bound (hub : DrillHub) (t0 : ℤ)
    (h : hub.last_tempo = some t0) (hstep : 0 ≤ hub.max_bpm_step) :
    ∀ t ∈ temposWithRateLimits hub, |t - t0| ≤ hub.max_bpm_step := by
  intro t ht
  have hrw : temposWithRateLimits hub =
      if (hub.active_tempos.filter
          (fun t => decide (|t - t0| ≤ hub.max_bpm_step ∨ t = t0))).isEmpty
      then [t0]
      else hub.active_tempos.filter
        (fun t => decide (|t - t0| ≤ hub.max_bpm_step ∨ t = t0)) := by
    unfold temposWithRateLimits
    rw [h]
  rw [hrw] at ht
  by_cases he : (hub.active_tempos.filter
      (fun t => decide (|t - t0| ≤ hub.max_bpm_step ∨ t = t0))).isEmpty
  · rw [if_pos he] at ht
    simp only [List.mem_singleton] at ht
    subst ht
    simpa using hstep
  · rw [if_neg he] at ht
    have hf := List.mem_filter.mp ht
    have hpr := of_decide_eq_true hf.2
    rcases hpr with hle | heq
    · exact hle
    · subst heq
      simpa using hstep

theorem menuRowAux_tempo (hub : DrillHub) (N : ℤ) :
    ∀ (ts : List ℤ) (l : List DrillCandidate), menuRowAux hub N ts = some l →
      ∀ c ∈ l, c.tempo ∈ ts := by
  intro ts
  induction ts with
  | nil =>
    intro l h c hc
    unfold menuRowAux at h
    injection h with h
    subst h
    exact absurd hc (List.not_mem_nil c)
  | cons t ts ih =>
    intro l h c hc
    unfold menuRowAux at h
    split at h
    · exact Option.noConfusion h
    · split at h
      · exact Option.noConfusion h
      · split at h
        · exact Option.noConfusion h
        · rename_i rest hrest
          split at h
          · injection h with h
            subst h
            exact List.mem_cons_of_mem t (ih rest hrest c hc)
          · split at h
            · exact Option.noConfusion h
            · injection h with h
              subst h
              rcases List.mem_cons.mp hc with rfl | hc2
              · exact List.mem_cons_self t ts
              · exact List.mem_cons_of_mem t (ih rest hrest c hc2)

theorem makeMenuAux_tempo (hub : DrillHub) :
    ∀ (Ns : List ℤ) (l : List DrillCandidate), makeMenuAux hub Ns = some l →
      ∀ c ∈ l, c.tempo ∈ temposWithRateLimits hub := by
  intro Ns
  induction Ns with
  | nil =>
    intro l h c hc
    unfold makeMenuAux at h
    injection h with h
    subst h
    exact absurd hc (List.not_mem_nil c)
  | cons N Ns ih =>
    intro l h c hc
    unfold makeMenuAux at h
    split at h
    · exact Option.noConfusion h
    · rename_i row hrow
      split at h
      · exact Option.noConfusion h
      · rename_i rest hrest
        injection h with h
        subst h
        rcases List.mem_append.mp hc with hc1 | hc2
        · exact menuRowAux_tempo hub N (temposWithRateLimits hub) row hrow c hc1
        · exact ih rest hrest c hc2

theorem makeMenu_tempo (hub : DrillHub) (menu : List DrillCandidate)
    (h : makeMenu hub = some menu) :
    ∀ c ∈ menu, c.tempo ∈ temposWithRateLimits hub := by
  intro c hc
  unfold makeMenu at h
  cases hx : makeMenuAux hub hub.N_set with
  | none =>
    rw [hx] at h
    exact Option.noConfusion h
  | some all =>
    rw [hx, Option.map_some'] at h
    injection h with h
    subst h
    have h1 : c ∈ sortByKey (fun c => |c.Fe - hub.F|) all := List.take_subset 6 _ hc
    rw [mem_sortByKey] at h1
    exact makeMenuAux_tempo hub hub.N_set all hx c h1

theorem pickFromSorted_mem (ms : List DrillCandidate) (F r : ℚ) (h : ms ≠ []) :
    pickFromSorted ms F r ∈ ms := by
  have hlen : 0 < ms.length := List.length_pos.mpr h
  simp only [pickFromSorted]
  split_ifs
  · exact getD_mem ms _ _ (by omega)
  · exact getD_mem ms _ _ (by omega)
  · exact getD_mem ms _ _ (by omega)

/-- A successfully sampled candidate either comes from the menu or is the
fallback built at the last offered tempo. -/
theorem sampleFromMenu_tempo (hub : DrillHub) (menu : List DrillCandidate)
    (r : ℚ) (cand : DrillCandidate) (t0 : ℤ) (h0 : hub.last_tempo = some t0)
    (hs : sampleFromMenu hub menu r = some cand) :
    cand.tempo = t0 ∨ cand ∈ menu := by
  have hft : fallbackTempo hub = some t0 := by
    unfold fallbackTempo
    rw [h0]
  cases menu with
  | nil =>
    left
    unfold sampleFromMenu at hs
    split at hs
    · split at hs
      · exact Option.noConfusion hs
      · split at hs
        · exact Option.noConfusion hs
        · rename_i tempo htempo
          split at hs
          · exact Option.noConfusion hs
          · split at hs
            · exact Option.noConfusion hs
            · split at hs
              · exact Option.noConfusion hs
              · injection hs with hs
                subst hs
                rw [hft] at htempo
                injection htempo with htempo
                exact htempo.symm
    · rename_i head tail heq
      exact absurd heq (by simp)
  | cons hd tl =>
    right
    have hne : sortByKey (fun c : DrillCandidate => c.Fe) (hd :: tl) ≠ [] := by
      intro hnil
      have hl := congrArg List.length hnil
      rw [length_sortByKey] at hl
      simp at hl
    have hp : pickFromSorted (sortByKey (fun c : DrillCandidate => c.Fe) (hd :: tl))
        hub.F r ∈ hd :: tl := by
      have hmem := pickFromSorted_mem
        (sortByKey (fun c : DrillCandidate => c.Fe) (hd :: tl)) hub.F r hne
      exact (mem_sortByKey (fun c : DrillCandidate => c.Fe) _ (hd :: tl)).mp hmem
    unfold sampleFromMenu at hs
    split at hs
    · rename_i heq
      exact absurd heq (by simp)
    · split at hs
      · split at hs
        · exact Option.noConfusion hs
        · injection hs with hs
          exact hs ▸ hp
      · injection hs with hs
        exact hs ▸ hp

/-- C8: whenever a candidate has already been offered in the current bout at
tempo t0 (so last_tempo is set and the constructor's max_bpm_step is
non-negative), any candidate the next call to next() returns has a tempo
within max_bpm_step of t0 — menu candidates are restricted to rate-limited
tempos, and the empty-menu fallback reuses t0 itself. -/
theorem C8_next_tempo_hysteresis (hub : DrillHub) (r : ℚ) (t0 : ℤ)
    (c : DrillCandidate) (hub2 : DrillHub) (h0 : hub.last_tempo = some t0)
    (hstep : 0 ≤ hub.max_bpm_step) (hn : nextHub hub r = some (c, hub2)) :
    |c.tempo - t0| ≤ hub.max_bpm_step := by
  unfold nextHub at hn
  split at hn
  · exact Option.noConfusion hn
  · rename_i menu hm
    split at hn
    · exact Option.noConfusion hn
    · rename_i cand hs
      injection hn with hn
      rw [Prod.mk.injEq] at hn
      obtain ⟨hcand, -⟩ := hn
      subst hcand
      rcases sampleFromMenu_tempo hub menu r cand t0 h0 hs with htempo | hmem
      · rw [htempo]
        simpa using hstep
      · exact temposWithRateLimits_bound hub t0 h0 hstep cand.tempo
          (makeMenu_tempo hub menu hm cand hmem)

theorem menu_hubW8 : makeMenu hubW8 = some [cW8, c84W8] := by
  with_unfolding_all decide

theorem sample_hubW8 : sampleFromMenu hubW8 [cW8, c84W8] (1 / 2) = some cW8 := by
  with_unfolding_all decide

theorem nextHub_hubW8 : nextHub hubW8 (1 / 2) = some (cW8, hubW8next) := by
  simp only [nextHub, menu_hubW8, sample_hubW8]
  rfl

/-- Witness for C8: on hubW8 (last offered tempo 80, max_bpm_step 8) the next
call returns the candidate at tempo 72, and |72 - 80| = 8 ≤ 8. -/
theorem C8_witness :
    hubW8.last_tempo = some 80 ∧ 0 ≤ hubW8.max_bpm_step ∧
    nextHub hubW8 (1 / 2) = some (cW8, hubW8next) ∧
    |cW8.tempo - 80| ≤ hubW8.max_bpm_step :=
  ⟨rfl, by decide, nextHub_hubW8,
    C8_next_tempo_hysteresis hubW8 (1 / 2) 80 cW8 hubW8next rfl (by decide)
      nextHub_hubW8⟩

/-! Feedback claims. -/

/-- C7: a feedback call reporting an incorrect answer adds exactly zero to
the bout's cumulative score, whatever the observed latency: the per-item
score is (correct ? 1 : 0) * credit. -/
theorem C7_incorrect_feedback_zero_score (hub : DrillHub) (sec : ℚ)
    (hub2 : DrillHub) (_hsome : hub.last_candidate.isSome = true)
    (h2 : feedbackHub hub false sec = some hub2) :
    hub2.bout.sum_score = hub.bout.sum_score := by
  unfold feedbackHub at h2
  split at h2
  · injection h2 with h2
    rw [← h2]
  · split at h2
    · exact Option.noConfusion h2
    · split at h2
      · exact Option.noConfusion h2
      · injection h2 with h2
        rw [← h2]
        simp

/-- Witness for C7 on the concrete state hubW7 with observed latency 2
seconds. -/
theorem C7_witness :
    hubW7.last_candidate.isSome = true ∧
    feedbackHub hubW7 false 2 = some hubW7after ∧
    hubW7after.bout.sum_score = hubW7.bout.sum_score :=
  ⟨rfl, by with_unfolding_all decide,
    C7_incorrect_feedback_zero_score hubW7 2 hubW7after rfl
      (by with_unfolding_all decide)⟩

/-- C6 (counterexample to the claim as stated): on a freshly constructed
scheduler that offered one candidate, two consecutive feedback calls with no
intervening next() both mutate the bout statistics: the item count goes
1 then 2 and the cumulative score 7/8 then 7/4 — because feedback never
clears the last-offered candidate, the second call is not a no-op. -/
theorem C6_consecutive_feedback_counts_twice :
    traceC6 = some ({ n_items := 1, sum_score := 7 / 8 },
      { n_items := 2, sum_score := 7 / 4 }) ∧
    ¬ ∀ b1 b2 : BoutStats, traceC6 = some (b1, b2) → b2 = b1 := by
  have hmain : traceC6 = some ({ n_items := 1, sum_score := 7 / 8 },
      { n_items := 2, sum_score := 7 / 4 }) := by
    have hmk : mkDrillHub 0 1 0 (some [72]) (some [1]) 60 200 1 =
        some hubC6 := by
      with_unfolding_all decide
    have hmenu : makeMenu hubC6 = some [cC1] := by
      with_unfolding_all decide
    have hsample : sampleFromMenu hubC6 [cC1] (1 / 2) = some cC1 := by
      with_unfolding_all decide
    have hnext : nextHub hubC6 (1 / 2) = some (cC1, hubC6b) := by
      simp only [nextHub, hmenu, hsample]
      rfl
    have hf1 : feedbackHub hubC6b true 2 = some hubC6c := by
      with_unfolding_all decide
    have hf2 : feedbackHub hubC6c true 2 = some hubC6d := by
      with_unfolding_all decide
    unfold traceC6
    rw [hmk]
    simp only [Option.some_bind, hnext, hf1, hf2, Option.map_some']
    rfl
  refine ⟨hmain, fun hall => ?_⟩
  have h2 := hall _ _ hmain
  have h3 : (2 : ℕ) = 1 := congrArg BoutStats.n_items h2
  exact absurd h3 (by decide)

/-- C6 (amended): feedback is a no-op exactly when no candidate has been
offered since construction or the last new_bout (last_candidate is None); it
then returns the state unchanged. -/
theorem C6_feedback_noop_iff_no_candidate (hub : DrillHub) (correct : Bool)
    (sec : ℚ) (h : hub.last_candidate = none) :
    feedbackHub hub correct sec = some hub := by
  unfold feedbackHub
  rw [h]

/-- Witness for the amended C6 on the concrete state hubW8, which has no
last-offered candidate. -/
theorem C6_witness :
    hubW8.last_candidate = none ∧ feedbackHub hubW8 true 2 = some hubW8 :=
  ⟨rfl, C6_feedback_noop_iff_no_candidate hubW8 true 2 rfl⟩

/-- C1 (failing evaluation): from DrillHub(F=0, tempos=[72], N_set=[1, 4]),
the first next() (draw 1/2) returns the level-1 candidate at tempo 72, and
the second next() (draw 19/20, which selects the harder slot N=4) reaches
the N rate-limit replacement path: there the source calls
DrillCandidate(last_N, tempo, pred, self._expected_fitness(...)) with only
four positional arguments — Fe receives the (Fe, q) pair and the required
diff argument is missing — so next() raises TypeError instead of returning a
candidate (modelled as none). -/
theorem C1_next_raises_in_rate_limit_path :
    traceC1 (1 / 2) (19 / 20) = some (cC1, none) := by
  have h0 : mkDrillHub 0 1 0 (some [72]) (some [1, 4]) 60 200 4 =
      some hubC1 := by
    with_unfolding_all decide
  have ht1 : temposWithRateLimits hubC1 = [72] := by
    with_unfolding_all decide
  have hrow1 : menuRowAux hubC1 1 [72] = some [cC1] := by
    with_unfolding_all decide
  have hrow4 : menuRowAux hubC1 4 [72] = some [c4C1] := by
    with_unfolding_all decide
  have hNset1 : hubC1.N_set = [1, 4] := rfl
  have haux1 : makeMenuAux hubC1 [1, 4] = some [cC1, c4C1] := by
    simp only [makeMenuAux, ht1, hrow1, hrow4, List.singleton_append,
      List.append_nil]
  have hmenu1 : makeMenu hubC1 = some [cC1, c4C1] := by
    simp only [makeMenu, hNset1, haux1, Option.map_some']
    with_unfolding_all decide
  have hsample1 : sampleFromMenu hubC1 [cC1, c4C1] (1 / 2) = some cC1 := by
    with_unfolding_all decide
  have h1 : nextHub hubC1 (1 / 2) = some (cC1, hubC1b) := by
    simp only [nextHub, hmenu1, hsample1]
    rfl
  have ht2 : temposWithRateLimits hubC1b = [72] := by
    with_unfolding_all decide
  have hrow1b : menuRowAux hubC1b 1 [72] = some [cC1] := by
    with_unfolding_all decide
  have hrow4b : menuRowAux hubC1b 4 [72] = some [c4C1] := by
    with_unfolding_all decide
  have hNset2 : hubC1b.N_set = [1, 4] := rfl
  have haux2 : makeMenuAux hubC1b [1, 4] = some [cC1, c4C1] := by
    simp only [makeMenuAux, ht2, hrow1b, hrow4b, List.singleton_append,
      List.append_nil]
  have hmenu2 : makeMenu hubC1b = some [cC1, c4C1] := by
    simp only [makeMenu, hNset2, haux2, Option.map_some']
    with_unfolding_all decide
  have hsample2 : sampleFromMenu hubC1b [cC1, c4C1] (19 / 20) = none := by
    with_unfolding_all decide
  have h2 : nextHub hubC1b (19 / 20) = none := by
    simp only [nextHub, hmenu2, hsample2]
  unfold traceC1
  rw [h0]
  simp only [Option.some_bind, h1, Option.map_some', h2]

end EarTrainer
